import Mathlib

/-!
Verification of the `redcapy` REDCap API client (src/redcapy.py, version 0.9.6).

The development shallowly embeds the single class `Redcapy`:

* POST-body construction for each public operation (`post_data` literals plus
  the allow-listed `**kwargs` merge loops) over an ordered association list
  mirroring a Python `dict`;
* the payload normalization step of `import_records` (lines 449-460);
* the response handling of `__core_api_code` (lines 55-103), including the
  `__find_url` regex check, the JSON / XML / raw-text cascade, and the
  `sys.exit` path of the blanket `except` clause.

External library calls are modelled by executable Lean functions faithful to
the library behavior actually exercised by this code: `json.loads` and
`json.dumps` (default separators, `ensure_ascii=True`; numeric literals are
modelled as JSON integers, fractional/exponent forms and lone surrogates are
outside the model), the specific regular expression passed to `re.findall`,
and the `BeautifulSoup(. , 'xml').hash.error.get_text()` extraction.
-/

/-- A Python value stored in a POST-data dict: a `str`, `None`, or some other
(opaque) object such as a list. -/
inductive Val where
  | vstr : String → Val
  | vnone : Val
  | vother : Val
deriving DecidableEq

/-- JSON values as produced by `json.loads`.  Object members are kept in
Python `dict` insertion order (duplicate keys: first position, last value). -/
inductive Json where
  | null : Json
  | bool : Bool → Json
  | num : Int → Json
  | str : String → Json
  | arr : List Json → Json
  | obj : List (String × Json) → Json

/-- The client object: it holds only the token and the endpoint URL
(`Redcapy.__init__`). -/
structure Redcapy where
  redcap_token : String
  redcap_url : String

/-- First-match lookup in an ordered association list (Python `d[k]` /
`k in d`, keys being unique by construction). -/
def dlookup : List (String × Val) → String → Option Val
  | [], _ => none
  | (k', v') :: rest, k => if k' = k then some v' else dlookup rest k

/-- Python `d[k] = v` on an ordered dict: replace in place when the key is
present, append otherwise. -/
def dictSet : List (String × Val) → String → Val → List (String × Val)
  | [], k, v => [(k, v)]
  | (k', v') :: rest, k, v =>
    if k' = k then (k, v) :: rest else (k', v') :: dictSet rest k v

/-- Python `d.pop(k)`: remove the entry with the given key. -/
def dictPop : List (String × Val) → String → List (String × Val)
  | [], _ => []
  | (k', v') :: rest, k => if k' = k then rest else (k', v') :: dictPop rest k

/-- The diagnostic printed by every kwargs loop:
`'{} is not a valid key'.format(key)`. -/
def invalidKeyMsg (k : String) : String := k ++ " is not a valid key"

/-- The `for key, value in kwargs.items():` loop shared by the export/import
methods: an allow-listed key overwrites the POST field, any other key only
appends a diagnostic.  The second component accumulates printed output. -/
def applyKwargs (allow : List String) (init : List (String × Val) × List String)
    (kwargs : List (String × Val)) : List (String × Val) × List String :=
  kwargs.foldl
    (fun acc kv =>
      if kv.1 ∈ allow then (dictSet acc.1 kv.1 kv.2, acc.2)
      else (acc.1, acc.2 ++ [invalidKeyMsg kv.1]))
    init

/-- Python-dict insertion for object members met while parsing
(duplicate keys: value of the last occurrence, position of the first). -/
def jdictSet : List (String × Json) → String → Json → List (String × Json)
  | [], k, v => [(k, v)]
  | (k', v') :: rest, k, v =>
    if k' = k then (k, v) :: rest else (k', v') :: jdictSet rest k v

/-- First-match lookup among parsed object members (`d['error']`). -/
def jlookup : List (String × Json) → String → Option Json
  | [], _ => none
  | (k', v') :: rest, k => if k' = k then some v' else jlookup rest k

/-- Python `j[k]`: succeeds only on an object holding the key; any other
access raises (`KeyError` / `TypeError`), modelled as `none`. -/
def jsonGet (j : Json) (k : String) : Option Json :=
  match j with
  | .obj kvs => jlookup kvs k
  | _ => none

/-- Skip JSON whitespace (space, tab, newline, carriage return). -/
def skipWs : List Char → List Char
  | [] => []
  | c :: rest =>
    if c = ' ' ∨ c = '\t' ∨ c = '\n' ∨ c = '\r' then skipWs rest else c :: rest

/-- Value of a hexadecimal digit, `none` for other characters. -/
def hexDigitVal (c : Char) : Option Nat :=
  if '0' ≤ c ∧ c ≤ '9' then some (c.toNat - 48)
  else if 'a' ≤ c ∧ c ≤ 'f' then some (c.toNat - 87)
  else if 'A' ≤ c ∧ c ≤ 'F' then some (c.toNat - 55)
  else none

/-- Body of a JSON string literal after the opening quote: ordinary
characters, the short escapes, and `\uXXXX` (surrogate pairs combined; raw
control characters rejected as in strict `json.loads`). -/
def parseStringChars : List Char → List Char → Option (String × List Char)
  | _, [] => none
  | acc, c :: rest =>
    if c = '"' then some (String.mk acc.reverse, rest)
    else if c = '\\' then
      match rest with
      | [] => none
      | e :: rest2 =>
        if e = '"' then parseStringChars ('"' :: acc) rest2
        else if e = '\\' then parseStringChars ('\\' :: acc) rest2
        else if e = '/' then parseStringChars ('/' :: acc) rest2
        else if e = 'b' then parseStringChars (Char.ofNat 8 :: acc) rest2
        else if e = 'f' then parseStringChars (Char.ofNat 12 :: acc) rest2
        else if e = 'n' then parseStringChars ('\n' :: acc) rest2
        else if e = 'r' then parseStringChars ('\r' :: acc) rest2
        else if e = 't' then parseStringChars ('\t' :: acc) rest2
        else if e = 'u' then
          match rest2 with
          | h1 :: h2 :: h3 :: h4 :: rest3 =>
            match hexDigitVal h1, hexDigitVal h2, hexDigitVal h3, hexDigitVal h4 with
            | some a, some b, some cc, some dd =>
              let n := a * 4096 + b * 256 + cc * 16 + dd
              if 0xD800 ≤ n ∧ n ≤ 0xDBFF then
                match rest3 with
                | '\\' :: 'u' :: g1 :: g2 :: g3 :: g4 :: rest4 =>
                  match hexDigitVal g1, hexDigitVal g2, hexDigitVal g3, hexDigitVal g4 with
                  | some a2, some b2, some c2, some d2 =>
                    let m := a2 * 4096 + b2 * 256 + c2 * 16 + d2
                    if 0xDC00 ≤ m ∧ m ≤ 0xDFFF then
                      parseStringChars
                        (Char.ofNat (0x10000 + (n - 0xD800) * 0x400 + (m - 0xDC00)) :: acc) rest4
                    else none
                  | _, _, _, _ => none
                | _ => none
              else if 0xDC00 ≤ n ∧ n ≤ 0xDFFF then none
              else parseStringChars (Char.ofNat n :: acc) rest3
            | _, _, _, _ => none
          | _ => none
        else none
    else if c.toNat < 0x20 then none
    else parseStringChars (c :: acc) rest

/-- Leading run of decimal digits. -/
def digitsSpan : List Char → List Char × List Char
  | [] => ([], [])
  | c :: rest =>
    if c.isDigit then
      let p := digitsSpan rest
      (c :: p.1, p.2)
    else ([], c :: rest)

/-- Numeric value of a digit run. -/
def digitsToNat (ds : List Char) : Nat :=
  ds.foldl (fun n c => n * 10 + (c.toNat - 48)) 0

/-- JSON integer literal (optional minus, no leading zeros).  Fractional and
exponent forms are outside the model and rejected. -/
def parseNum (cs : List Char) : Option (Json × List Char) :=
  let p : Bool × List Char :=
    match cs with
    | '-' :: rest => (true, rest)
    | _ => (false, cs)
  let q := digitsSpan p.2
  match q.1 with
  | [] => none
  | d :: ds =>
    if d = '0' ∧ ds ≠ [] then none
    else
      match q.2 with
      | '.' :: _ => none
      | 'e' :: _ => none
      | 'E' :: _ => none
      | rest =>
        let n : Int := Int.ofNat (digitsToNat (d :: ds))
        some (.num (if p.1 then -n else n), rest)

/-- Comma-separated tail of a JSON array, given a parser for one value. -/
def parseArrItems : Nat → (List Char → Option (Json × List Char)) →
    List Json → List Char → Option (Json × List Char)
  | 0, _, _, _ => none
  | fuel + 1, p, acc, cs =>
    match cs with
    | ']' :: rest => some (.arr acc.reverse, rest)
    | ',' :: rest =>
      match p (skipWs rest) with
      | some (v, rest2) => parseArrItems fuel p (v :: acc) (skipWs rest2)
      | none => none
    | _ => none

/-- Comma-separated tail of a JSON object, given a parser for one value. -/
def parseObjItems : Nat → (List Char → Option (Json × List Char)) →
    List (String × Json) → List Char → Option (Json × List Char)
  | 0, _, _, _ => none
  | fuel + 1, p, acc, cs =>
    match cs with
    | '}' :: rest => some (.obj acc, rest)
    | ',' :: rest =>
      match skipWs rest with
      | '"' :: rest2 =>
        match parseStringChars [] rest2 with
        | some (k, rest3) =>
          match skipWs rest3 with
          | ':' :: rest4 =>
            match p (skipWs rest4) with
            | some (v, rest5) => parseObjItems fuel p (jdictSet acc k v) (skipWs rest5)
            | none => none
          | _ => none
        | none => none
      | _ => none
    | _ => none

/-- One JSON value (leading whitespace already skipped); returns the value
and the unconsumed rest. -/
def parseVal : Nat → List Char → Option (Json × List Char)
  | 0, _ => none
  | fuel + 1, cs =>
    match cs with
    | [] => none
    | 'n' :: 'u' :: 'l' :: 'l' :: rest => some (.null, rest)
    | 't' :: 'r' :: 'u' :: 'e' :: rest => some (.bool true, rest)
    | 'f' :: 'a' :: 'l' :: 's' :: 'e' :: rest => some (.bool false, rest)
    | '"' :: rest =>
      match parseStringChars [] rest with
      | some (s, rest2) => some (.str s, rest2)
      | none => none
    | '[' :: rest =>
      match skipWs rest with
      | ']' :: rest2 => some (.arr [], rest2)
      | rest2 =>
        match parseVal fuel rest2 with
        | some (v, rest3) => parseArrItems fuel (parseVal fuel) [v] (skipWs rest3)
        | none => none
    | '{' :: rest =>
      match skipWs rest with
      | '}' :: rest2 => some (.obj [], rest2)
      | '"' :: rest2 =>
        match parseStringChars [] rest2 with
        | some (k, rest3) =>
          match skipWs rest3 with
          | ':' :: rest4 =>
            match parseVal fuel (skipWs rest4) with
            | some (v, rest5) => parseObjItems fuel (parseVal fuel) [(k, v)] (skipWs rest5)
            | none => none
          | _ => none
        | none => none
      | _ => none
    | c :: _ => if c = '-' ∨ c.isDigit then parseNum cs else none

/-- Model of `json.loads`: strict parse of the whole input (surrounding
whitespace permitted), `none` when the call would raise. -/
def jsonParse (s : String) : Option Json :=
  match parseVal (s.data.length + 1) (skipWs s.data) with
  | some (v, rest) => if skipWs rest = [] then some v else none
  | none => none

/-- Hexadecimal digit character (lowercase), as used by `json.dumps`. -/
def hexDigit (n : Nat) : Char :=
  if n < 10 then Char.ofNat (48 + n) else Char.ofNat (87 + n)

/-- Four-digit lowercase hexadecimal rendering of a code unit. -/
def hex4 (n : Nat) : String :=
  String.mk [hexDigit (n / 4096 % 16), hexDigit (n / 256 % 16),
             hexDigit (n / 16 % 16), hexDigit (n % 16)]

/-- `json.dumps` escaping of one character (`ensure_ascii=True`): short
escapes, `\uXXXX` for other controls and for all non-ASCII, surrogate pairs
beyond the BMP, everything in `0x20`-`0x7E` verbatim. -/
def escChar (c : Char) : String :=
  if c = '"' then "\\\""
  else if c = '\\' then "\\\\"
  else if c = '\n' then "\\n"
  else if c = '\r' then "\\r"
  else if c = '\t' then "\\t"
  else if c.toNat = 8 then "\\b"
  else if c.toNat = 12 then "\\f"
  else if c.toNat < 0x20 then "\\u" ++ hex4 c.toNat
  else if c.toNat < 0x7F then String.mk [c]
  else if c.toNat ≤ 0xFFFF then "\\u" ++ hex4 c.toNat
  else
    "\\u" ++ hex4 (0xD800 + (c.toNat - 0x10000) / 0x400) ++
    "\\u" ++ hex4 (0xDC00 + (c.toNat - 0x10000) % 0x400)

/-- `json.dumps` rendering of a string literal. -/
def jsonQuote (s : String) : String :=
  "\"" ++ String.join (s.data.map escChar) ++ "\""

/-- Fuel-indexed body of `jsonDumps` (the fuel bounds nesting depth and is
never exhausted for values within the modelled depth). -/
def dumpsF : Nat → Json → String
  | 0, _ => ""
  | fuel + 1, j =>
    match j with
    | .null => "null"
    | .bool true => "true"
    | .bool false => "false"
    | .num n => toString n
    | .str s => jsonQuote s
    | .arr xs => "[" ++ String.intercalate ", " (xs.map (dumpsF fuel)) ++ "]"
    | .obj kvs =>
      "\x7b" ++
      String.intercalate ", "
        (kvs.map (fun kv => jsonQuote kv.1 ++ ": " ++ dumpsF fuel kv.2)) ++
      "\x7d"

/-- Model of `json.dumps` with the default separators `', '` and `': '`. -/
def jsonDumps (j : Json) : String := dumpsF 4096 j

/-- One repetition of the alternation inside the `__find_url` pattern
`http[s]?://(?:[a-zA-Z]|[0-9]|[$-_@.&+]| [! * \(\),] | (?: %[0-9a-fA-F][0-9a-fA-F]))+`:
a letter, a digit, a character in the range `$`-`_` (which subsumes
`@ . & +`), a space-wrapped punctuation character (3 characters: space,
one of `! * ( ) ,` or another space, space), or the fifth alternative
whose leading space sits outside the non-capturing group and whose group
starts with a second literal space (5 characters: space, space, `%`, two
hex digits).  Returns the number of characters consumed. -/
def urlBodyUnit (cs : List Char) : Option Nat :=
  match cs with
  | [] => none
  | c :: rest =>
    if ('a' ≤ c ∧ c ≤ 'z') ∨ ('A' ≤ c ∧ c ≤ 'Z') then some 1
    else if '0' ≤ c ∧ c ≤ '9' then some 1
    else if '$' ≤ c ∧ c ≤ '_' then some 1
    else if c = ' ' then
      match rest with
      | c2 :: c3 :: rest3 =>
        if (c2 = '!' ∨ c2 = ' ' ∨ c2 = '*' ∨ c2 = '(' ∨ c2 = ')' ∨ c2 = ',') ∧ c3 = ' ' then
          some 3
        else
          match rest3 with
          | c4 :: c5 :: _ =>
            if c2 = ' ' ∧ c3 = '%' ∧ (hexDigitVal c4).isSome ∧ (hexDigitVal c5).isSome then
              some 5
            else none
          | _ => none
      | _ => none
    else none

/-- Greedy match of `(?:...)+` body units; nothing follows the `+` in the
pattern, so maximal munch with first-alternative preference is exactly the
backtracking regex behavior.  Returns the number of characters consumed. -/
def urlUnits : Nat → List Char → Nat
  | 0, _ => 0
  | fuel + 1, cs =>
    match urlBodyUnit cs with
    | some n => n + urlUnits fuel (cs.drop n)
    | none => 0

/-- Match of the whole `__find_url` pattern anchored at the current
position (`http`, greedy optional `s`, `://`, then at least one body unit);
returns the length of the match. -/
def matchUrlAt (cs : List Char) : Option Nat :=
  match cs with
  | 'h' :: 't' :: 't' :: 'p' :: rest =>
    match rest with
    | 's' :: ':' :: '/' :: '/' :: rest2 =>
      let n := urlUnits (rest2.length + 1) rest2
      if n > 0 then some (8 + n) else none
    | ':' :: '/' :: '/' :: rest2 =>
      let n := urlUnits (rest2.length + 1) rest2
      if n > 0 then some (7 + n) else none
    | _ => none
  | _ => none

/-- Leftmost match scan of `re.findall` (the code only uses `url_list[0]`). -/
def findUrlAux : Nat → List Char → Option (List Char)
  | 0, _ => none
  | fuel + 1, cs =>
    match matchUrlAt cs with
    | some n => some (cs.take n)
    | none =>
      match cs with
      | [] => none
      | _ :: rest => findUrlAux fuel rest

/-- Model of `Redcapy.__find_url`: the first URL-pattern match in the
argument, or the empty string when there is none. -/
def findUrl (s : String) : String :=
  match findUrlAux (s.data.length + 1) s.data with
  | some m => String.mk m
  | none => ""

/-- Suffix following the first occurrence of the pattern. -/
def dropAfterSub (pat : List Char) : Nat → List Char → Option (List Char)
  | 0, _ => none
  | fuel + 1, cs =>
    if pat.isPrefixOf cs then some (cs.drop pat.length)
    else
      match cs with
      | [] => none
      | _ :: rest => dropAfterSub pat fuel rest

/-- Characters preceding the first occurrence of the pattern (`none` when
the pattern is absent). -/
def takeUntilSub (pat : List Char) : Nat → List Char → Option (List Char)
  | 0, _ => none
  | fuel + 1, cs =>
    if pat.isPrefixOf cs then some []
    else
      match cs with
      | [] => none
      | c :: rest => (takeUntilSub pat fuel rest).map (c :: ·)

/-- Model of `BeautifulSoup(text, 'xml').hash.error.get_text()`: the text of
the first `error` element inside the first `hash` element; `none` models the
`AttributeError` raised when the structure is absent. -/
def xmlHashError (s : String) : Option String :=
  match dropAfterSub "<hash>".data (s.data.length + 1) s.data with
  | none => none
  | some rest =>
    match dropAfterSub "<error>".data (rest.length + 1) rest with
    | none => none
    | some rest2 =>
      (takeUntilSub "</error>".data (rest2.length + 1) rest2).map String.mk

/-- Outcome of the `requests.post` transport call: a response with status
code and decoded body text, or a raised connection error. -/
inductive Transport where
  | ok : Nat → String → Transport
  | connError : Transport

/-- The Python value returned by `__core_api_code`. -/
inductive RVal where
  | rbool : Bool → RVal
  | rstr : String → RVal
  | rjson : Json → RVal

/-- Either a normal return or process termination through `sys.exit`. -/
inductive ApiResult where
  | exited : String → ApiResult
  | ret : RVal → ApiResult

/-- Printed diagnostics plus the call result. -/
structure Outcome where
  prints : List String
  result : ApiResult

/-- `sys.exit` message of the blanket `except` clause (line 79). -/
def connAbort : String := "Critical: Unable to connect to Redcap server. Aborting execution."

/-- The special-cased REDCap error message (line 63). -/
def noFileMsg : String := "There is no file to delete for this record"

/-- Diagnostic of the terminal fallback (line 100); `print` joins its two
arguments with a space. -/
def notJsonXmlMsg (rv : String) : String :=
  "Error: Data returned from Redcap was not a JSON nor XML object. Data: " ++ " " ++ rv

/-- The non-200 branch (lines 66-77): build the status message, try the XML
error extraction (its own failure is caught locally), print, return `False`. -/
def nonOkOutcome (status : Nat) (text : String) : Outcome :=
  let base := "Critical: Redcap server returned a " ++ toString status ++
    " status code. Error received from Redcap: "
  match xmlHashError text with
  | some t => ⟨[base ++ t], .ret (.rbool false)⟩
  | none => ⟨[base ++ text], .ret (.rbool false)⟩

/-- The 200-status normalization (lines 82-103): bare-URL check first, then
the empty-body file-delete success, then the JSON / XML / raw cascade (or
`True` for an empty body on a file import). -/
def normalize200 (import_file delete_file : Bool) (rv : String) : Outcome :=
  if rv ≠ "" ∧ findUrl rv = rv then ⟨[], .ret (.rstr rv)⟩
  else if delete_file = true ∧ rv.length = 0 then ⟨[], .ret (.rbool true)⟩
  else if (rv.length > 0 ∧ import_file = true) ∨ import_file = false then
    match jsonParse rv with
    | some j => ⟨[], .ret (.rjson j)⟩
    | none =>
      match xmlHashError rv with
      | some t => ⟨[], .ret (.rstr t)⟩
      | none => ⟨[notJsonXmlMsg rv], .ret (.rstr rv)⟩
  else ⟨[], .ret (.rbool true)⟩

/-- Model of `Redcapy.__core_api_code` response handling.  The status-code
checks of lines 63-77 sit inside the `try` block, so an exception raised by
`json.loads(r.text)` or by the `['error']` access on a 400-status response
escapes to the blanket `except` clause and terminates the process with the
connection-failure message. -/
def coreApiCode (import_file delete_file : Bool) (tr : Transport) : Outcome :=
  match tr with
  | .connError => ⟨[], .exited connAbort⟩
  | .ok status text =>
    if status = 400 then
      match jsonParse text with
      | none => ⟨[], .exited connAbort⟩
      | some j =>
        match jsonGet j "error" with
        | none => ⟨[], .exited connAbort⟩
        | some (.str s) =>
          if s = noFileMsg then ⟨[noFileMsg], .ret (.rbool true)⟩
          else if status ≠ 200 then nonOkOutcome status text
          else normalize200 import_file delete_file text
        | some _ =>
          if status ≠ 200 then nonOkOutcome status text
          else normalize200 import_file delete_file text
    else if status ≠ 200 then nonOkOutcome status text
    else normalize200 import_file delete_file text

/-- The JSON / XML / raw-text classification cascade of lines 92-101, as a
standalone description used to state the cascade theorems. -/
def jsonXmlRawOutcome (rv : String) : Outcome :=
  match jsonParse rv with
  | some j => ⟨[], .ret (.rjson j)⟩
  | none =>
    match xmlHashError rv with
    | some t => ⟨[], .ret (.rstr t)⟩
    | none => ⟨[notJsonXmlMsg rv], .ret (.rstr rv)⟩

/-- Allow-list of `export_events` (lines 152-156). -/
def eventsKeys : List String := ["token", "content", "format", "arms", "returnFormat"]

/-- Allow-list of `export_data_dictionary` (lines 195-200). -/
def metadataKeys : List String :=
  ["token", "content", "format", "fields", "forms", "returnFormat"]

/-- Allow-list of `export_survey_link` (lines 241-244). -/
def surveyLinkKeys : List String := ["token", "content", "format", "returnFormat"]

/-- Allow-list of `export_survey_participants` (lines 283-286). -/
def participantsKeys : List String := ["token", "content", "format", "returnFormat"]

/-- Allow-list of `export_records` (lines 347-359). -/
def recordsKeys : List String :=
  ["fields", "forms", "events", "token", "content", "format", "type", "rawOrLabel",
   "rawOrLabelHeaders", "exportCheckboxLabel", "exportSurveyFields",
   "exportDataAccessGroups", "returnFormat"]

/-- Allow-list of `import_records` (lines 436-444). -/
def importRecordsKeys : List String :=
  ["token", "content", "format", "type", "overwriteBehavior", "data", "dateFormat",
   "returnContent", "returnFormat"]

/-- Allow-list of `delete_record` (lines 493-496). -/
def deleteRecordKeys : List String := ["token", "content", "records[0]", "arm"]

/-- Allow-list of `delete_form` (lines 537-544). -/
def deleteFormKeys : List String :=
  ["token", "content", "action", "records[0]", "field", "event", "repeat_instance"]

/-- Allow-list of `import_file` (lines 598-607). -/
def importFileKeys : List String :=
  ["token", "content", "format", "action", "record", "field", "event",
   "returnContent", "file"]

/-- `export_events`: the POST data built (lines 143-159) and the printed
diagnostics; the transport call is applied to the first component. -/
def Redcapy.export_events (rc : Redcapy) (kwargs : List (String × Val)) :
    List (String × Val) × List String :=
  applyKwargs eventsKeys
    ([("token", .vstr rc.redcap_token), ("content", .vstr "event"),
      ("format", .vstr "json"), ("returnFormat", .vstr "json")], []) kwargs

/-- `export_data_dictionary`: POST data of lines 186-203. -/
def Redcapy.export_data_dictionary (rc : Redcapy) (kwargs : List (String × Val)) :
    List (String × Val) × List String :=
  applyKwargs metadataKeys
    ([("token", .vstr rc.redcap_token), ("content", .vstr "metadata"),
      ("format", .vstr "json"), ("returnFormat", .vstr "json")], []) kwargs

/-- `export_survey_link`: POST data of lines 229-247. -/
def Redcapy.export_survey_link (rc : Redcapy) (instrument event record : String)
    (kwargs : List (String × Val)) : List (String × Val) × List String :=
  applyKwargs surveyLinkKeys
    ([("token", .vstr rc.redcap_token), ("content", .vstr "surveyLink"),
      ("format", .vstr "json"), ("instrument", .vstr instrument),
      ("event", .vstr event), ("record", .vstr record),
      ("returnFormat", .vstr "json")], []) kwargs

/-- `export_survey_participants`: POST data of lines 272-289. -/
def Redcapy.export_survey_participants (rc : Redcapy) (instrument event : String)
    (kwargs : List (String × Val)) : List (String × Val) × List String :=
  applyKwargs participantsKeys
    ([("token", .vstr rc.redcap_token), ("content", .vstr "participantList"),
      ("format", .vstr "json"), ("instrument", .vstr instrument),
      ("event", .vstr event), ("returnFormat", .vstr "json")], []) kwargs

/-- `export_records`: POST data of lines 332-362. -/
def Redcapy.export_records (rc : Redcapy) (kwargs : List (String × Val)) :
    List (String × Val) × List String :=
  applyKwargs recordsKeys
    ([("token", .vstr rc.redcap_token), ("content", .vstr "record"),
      ("format", .vstr "json"), ("type", .vstr "flat"),
      ("rawOrLabel", .vstr "raw"), ("rawOrLabelHeaders", .vstr "raw"),
      ("exportCheckboxLabel", .vstr "false"), ("exportSurveyFields", .vstr "false"),
      ("exportDataAccessGroups", .vstr "false"), ("returnFormat", .vstr "json")], [])
    kwargs

/-- The diagnostic printed when the `import_records` payload cannot be
parsed (line 457). -/
def badPayloadMsg : String :=
  "Please check if the data_to_upload field is formatted properly for conversion to JSON\n"

/-- The `post_data` literal of `import_records` (lines 422-432). -/
def importRecordsPostData (rc : Redcapy) (data_to_upload : Val) : List (String × Val) :=
  [("token", .vstr rc.redcap_token), ("content", .vstr "record"),
   ("format", .vstr "json"), ("type", .vstr "flat"),
   ("overwriteBehavior", .vstr "normal"), ("data", data_to_upload),
   ("dateFormat", .vstr "YMD"), ("returnContent", .vstr "count"),
   ("returnFormat", .vstr "json")]

/-- The payload normalization of `import_records` (lines 449-460), applied
to the merged POST data.  It reads the original positional `data_to_upload`
(not the possibly overridden `data` field): when the format field is `json`
and the payload is a string not starting with `[`, a successful parse
re-wraps it into a one-element JSON array and overwrites the `data` field,
and a failed parse only prints a diagnostic. -/
def importRecordsTransform (data_to_upload : Val) (d : List (String × Val))
    (ps : List String) : List (String × Val) × List String :=
  if dlookup d "format" = some (.vstr "json") then
    match data_to_upload with
    | .vstr s =>
      if s.take 1 ≠ "[" then
        match jsonParse s with
        | some j => (dictSet d "data" (.vstr (jsonDumps (.arr [j]))), ps)
        | none => (d, ps ++ [badPayloadMsg])
      else (d, ps)
    | _ => (d, ps)
  else (d, ps)

/-- `import_records` (lines 366-462): the `post_data` literal, the
allow-listed kwargs merge, then the payload normalization. -/
def Redcapy.import_records (rc : Redcapy) (data_to_upload : Val)
    (kwargs : List (String × Val)) : List (String × Val) × List String :=
  importRecordsTransform data_to_upload
    (applyKwargs importRecordsKeys (importRecordsPostData rc data_to_upload, []) kwargs).1
    (applyKwargs importRecordsKeys (importRecordsPostData rc data_to_upload, []) kwargs).2

/-- `delete_record`: POST data of lines 484-499. -/
def Redcapy.delete_record (rc : Redcapy) (id_to_delete : String)
    (kwargs : List (String × Val)) : List (String × Val) × List String :=
  applyKwargs deleteRecordKeys
    ([("token", .vstr rc.redcap_token), ("action", .vstr "delete"),
      ("content", .vstr "record"), ("records[0]", .vstr id_to_delete)], []) kwargs

/-- `delete_form`: POST data of lines 525-547. -/
def Redcapy.delete_form (rc : Redcapy) (id field event repeat_instance : String)
    (kwargs : List (String × Val)) : List (String × Val) × List String :=
  applyKwargs deleteFormKeys
    ([("token", .vstr rc.redcap_token), ("content", .vstr "file"),
      ("action", .vstr "delete"), ("record", .vstr id), ("field", .vstr field),
      ("event", .vstr event), ("repeat_instance", .vstr repeat_instance)], []) kwargs

/-- Python `str(value)` as applied to kwargs values in `import_file`
(line 608): the identity on a `str`, the text `None` for `None`; other
objects stay opaque. -/
def pyStr : Val → Val
  | .vstr s => .vstr s
  | .vnone => .vstr "None"
  | .vother => .vother

/-- The `import_file` kwargs loop (lines 596-610), which stores `str(value)`
instead of the raw value. -/
def applyKwargsStr (allow : List String) (init : List (String × Val) × List String)
    (kwargs : List (String × Val)) : List (String × Val) × List String :=
  kwargs.foldl
    (fun acc kv =>
      if kv.1 ∈ allow then (dictSet acc.1 kv.1 (pyStr kv.2), acc.2)
      else (acc.1, acc.2 ++ [invalidKeyMsg kv.1]))
    init

/-- `'action' in kwargs and kwargs['action'] in [...]` (lines 612 and
619-621). -/
def actionInList (kwargs : List (String × Val)) (l : List String) : Bool :=
  match dlookup kwargs "action" with
  | some (.vstr s) => decide (s ∈ l)
  | _ => false

/-- The `post_data` of `import_file` before the kwargs merge: the literal of
lines 581-591 plus the truthiness-guarded `repeat_instance` field of lines
593-594 (`if repeat_instance:` is false for `None` and for the empty
string). -/
def importFilePostData (rc : Redcapy) (record_id field event : String)
    (filename : Val) (repeat_instance : Option String) : List (String × Val) :=
  let pd0 : List (String × Val) :=
    [("token", .vstr rc.redcap_token), ("content", .vstr "file"),
     ("format", .vstr "json"), ("action", .vstr "import"),
     ("record", .vstr record_id), ("field", .vstr field), ("event", .vstr event),
     ("returnFormat", .vstr "json"), ("file", filename)]
  match repeat_instance with
  | none => pd0
  | some s => if s = "" then pd0 else dictSet pd0 "repeat_instance" (.vstr s)

/-- `import_file`: POST data of lines 581-613 — the literal, the optional
`repeat_instance` field, the `str`-coercing kwargs merge, and the removal of
the `file` field when an `action` override of `export` or `delete` is
supplied. -/
def Redcapy.import_file (rc : Redcapy) (record_id field event : String)
    (filename : Val) (repeat_instance : Option String)
    (kwargs : List (String × Val)) : List (String × Val) × List String :=
  let res := applyKwargsStr importFileKeys
    (importFilePostData rc record_id field event filename repeat_instance, []) kwargs
  if actionInList kwargs ["export", "delete"] then (dictPop res.1 "file", res.2)
  else res

/-- `delete_file` (lines 637-642): `import_file` with a `None` filename and
an `action='delete'` keyword argument. -/
def Redcapy.delete_file (rc : Redcapy) (record_id field event : String)
    (repeat_instance : Option String) : List (String × Val) × List String :=
  rc.import_file record_id field event .vnone repeat_instance
    [("action", .vstr "delete")]

/-- A payload already in the array form documented for `import_records`:
a string starting with `[`, or a non-string object; the payload
normalization of lines 449-460 leaves such payloads untouched. -/
def arrayFormPayload : Val → Bool
  | .vstr s => s.take 1 = "["
  | _ => true

/-!  Theorems.  First the generic association-list and kwargs-merge lemmas,
then the helper lemmas about the response normalizer and the
`import_records` payload normalization, then one theorem (with witness or
counterexample) per specification claim. -/

theorem dlookup_dictSet_self (d : List (String × Val)) (k : String) (v : Val) :
    dlookup (dictSet d k v) k = some v := by
  induction d with
  | nil => simp [dictSet, dlookup]
  | cons hd tl ih =>
    by_cases h : hd.1 = k
    · simp [dictSet, dlookup, h]
    · simp [dictSet, dlookup, h, ih]

theorem dlookup_dictSet_ne (d : List (String × Val)) (k : String) (v : Val)
    (k' : String) (h : k' ≠ k) :
    dlookup (dictSet d k v) k' = dlookup d k' := by
  have hne : ¬k = k' := fun hh => h hh.symm
  induction d with
  | nil => simp [dictSet, dlookup, hne]
  | cons hd tl ih =>
    obtain ⟨k0, v0⟩ := hd
    by_cases hh : k0 = k
    · subst hh
      simp [dictSet, dlookup, hne]
    · by_cases hk' : k0 = k'
      · subst hk'
        simp [dictSet, dlookup, hh]
      · simp [dictSet, dlookup, hh, hk', ih]

theorem applyKwargs_nil (allow : List String)
    (init : List (String × Val) × List String) :
    applyKwargs allow init [] = init := rfl

theorem applyKwargs_single_mem (allow : List String)
    (d : List (String × Val)) (ps : List String) (k : String) (v : Val)
    (h : k ∈ allow) :
    applyKwargs allow (d, ps) [(k, v)] = (dictSet d k v, ps) := by
  simp [applyKwargs, h]

theorem applyKwargs_single_not_mem (allow : List String)
    (d : List (String × Val)) (ps : List String) (k : String) (v : Val)
    (h : k ∉ allow) :
    applyKwargs allow (d, ps) [(k, v)] = (d, ps ++ [invalidKeyMsg k]) := by
  simp [applyKwargs, h]

theorem applyKwargsStr_single_mem (allow : List String)
    (d : List (String × Val)) (ps : List String) (k : String) (v : Val)
    (h : k ∈ allow) :
    applyKwargsStr allow (d, ps) [(k, v)] = (dictSet d k (pyStr v), ps) := by
  simp [applyKwargsStr, h]

theorem applyKwargsStr_single_not_mem (allow : List String)
    (d : List (String × Val)) (ps : List String) (k : String) (v : Val)
    (h : k ∉ allow) :
    applyKwargsStr allow (d, ps) [(k, v)] = (d, ps ++ [invalidKeyMsg k]) := by
  simp [applyKwargsStr, h]

theorem strLength_zero (s : String) (h : s.length = 0) : s = "" := by
  cases s with
  | mk d =>
    cases d with
    | nil => rfl
    | cons c cs => simp [String.length] at h

theorem coreApi_200 (imp del : Bool) (body : String) :
    coreApiCode imp del (.ok 200 body) = normalize200 imp del body := by
  simp [coreApiCode]

theorem normalize200_url (imp del : Bool) (body : String) (h1 : body ≠ "")
    (h2 : findUrl body = body) :
    normalize200 imp del body = ⟨[], .ret (.rstr body)⟩ := by
  unfold normalize200
  rw [if_pos ⟨h1, h2⟩]

theorem normalize200_cascade (imp del : Bool) (body : String) (h1 : body ≠ "")
    (h2 : findUrl body ≠ body) :
    normalize200 imp del body = jsonXmlRawOutcome body := by
  have hlen : body.length ≠ 0 := fun h => h1 (strLength_zero body h)
  have hpos : 0 < body.length := Nat.pos_of_ne_zero hlen
  have hc3 : (body.length > 0 ∧ imp = true) ∨ imp = false := by
    cases imp
    · exact Or.inr rfl
    · exact Or.inl ⟨hpos, rfl⟩
  unfold normalize200 jsonXmlRawOutcome
  rw [if_neg (fun hc => h2 hc.2), if_neg (fun hc => hlen hc.2), if_pos hc3]

theorem importRecordsTransform_arrayForm (p : Val) (hp : arrayFormPayload p = true)
    (d : List (String × Val)) (ps : List String) :
    importRecordsTransform p d ps = (d, ps) := by
  cases p with
  | vstr s =>
    have hs : s.take 1 = "[" := by simpa [arrayFormPayload] using hp
    unfold importRecordsTransform
    by_cases hc : dlookup d "format" = some (.vstr "json")
    · rw [if_pos hc]
      dsimp only
      rw [if_neg (by simp [hs])]
    · rw [if_neg hc]
  | vnone =>
    unfold importRecordsTransform
    by_cases hc : dlookup d "format" = some (.vstr "json")
    · rw [if_pos hc]
    · rw [if_neg hc]
  | vother =>
    unfold importRecordsTransform
    by_cases hc : dlookup d "format" = some (.vstr "json")
    · rw [if_pos hc]
    · rw [if_neg hc]

theorem importRecordsTransform_decomp (p : Val) (d : List (String × Val))
    (ps : List String) :
    (importRecordsTransform p d ps).1 = (importRecordsTransform p d []).1 ∧
    ∃ extra, (importRecordsTransform p d ps).2 = ps ++ extra := by
  unfold importRecordsTransform
  by_cases hc : dlookup d "format" = some (.vstr "json")
  · rw [if_pos hc, if_pos hc]
    cases p with
    | vstr s =>
      dsimp only
      by_cases hp : s.take 1 ≠ "["
      · rw [if_pos hp, if_pos hp]
        cases hj : jsonParse s with
        | some j =>
          constructor
          · simp [hj]
          · exact ⟨[], by simp [hj]⟩
        | none =>
          constructor
          · simp [hj]
          · exact ⟨[badPayloadMsg], by simp [hj]⟩
      · rw [if_neg hp, if_neg hp]
        exact ⟨rfl, ⟨[], by simp⟩⟩
    | vnone => exact ⟨rfl, ⟨[], by simp⟩⟩
    | vother => exact ⟨rfl, ⟨[], by simp⟩⟩
  · rw [if_neg hc, if_neg hc]
    exact ⟨rfl, ⟨[], by simp⟩⟩

theorem importRecordsTransform_frame (p : Val) (d : List (String × Val))
    (k : String) (hkd : k ≠ "data") (hkf : k ≠ "format") (v : Val)
    (hfmt : dlookup d "format" = some (.vstr "json")) (k' : String) (hne : k' ≠ k) :
    dlookup (importRecordsTransform p (dictSet d k v) []).1 k = some v ∧
    dlookup (importRecordsTransform p (dictSet d k v) []).1 k' =
      dlookup (importRecordsTransform p d []).1 k' := by
  have hfmt2 : dlookup (dictSet d k v) "format" = some (.vstr "json") := by
    rw [dlookup_dictSet_ne d k v "format" (Ne.symm hkf)]
    exact hfmt
  unfold importRecordsTransform
  rw [if_pos hfmt2, if_pos hfmt]
  cases p with
  | vstr s =>
    dsimp only
    by_cases hp : s.take 1 ≠ "["
    · rw [if_pos hp, if_pos hp]
      cases hj : jsonParse s with
      | some j =>
        simp only [hj]
        refine ⟨?_, ?_⟩
        · rw [dlookup_dictSet_ne _ _ _ k hkd, dlookup_dictSet_self]
        · by_cases hkdata : k' = "data"
          · subst hkdata
            rw [dlookup_dictSet_self, dlookup_dictSet_self]
          · rw [dlookup_dictSet_ne _ _ _ k' hkdata,
                dlookup_dictSet_ne _ _ _ k' hkdata,
                dlookup_dictSet_ne _ _ _ k' hne]
      | none =>
        simp only [hj]
        exact ⟨dlookup_dictSet_self d k v, dlookup_dictSet_ne d k v k' hne⟩
    · rw [if_neg hp, if_neg hp]
      exact ⟨dlookup_dictSet_self d k v, dlookup_dictSet_ne d k v k' hne⟩
  | vnone => exact ⟨dlookup_dictSet_self d k v, dlookup_dictSet_ne d k v k' hne⟩
  | vother => exact ⟨dlookup_dictSet_self d k v, dlookup_dictSet_ne d k v k' hne⟩

theorem override_frame_generic (allow : List String) (d : List (String × Val))
    (k : String) (hk : k ∈ allow) (v : Val) (k' : String) (hne : k' ≠ k) :
    dlookup (applyKwargs allow (d, []) [(k, v)]).1 k = some v ∧
    dlookup (applyKwargs allow (d, []) [(k, v)]).1 k' =
      dlookup (applyKwargs allow (d, []) []).1 k' := by
  rw [applyKwargs_single_mem _ _ _ _ _ hk, applyKwargs_nil]
  exact ⟨dlookup_dictSet_self d k v, dlookup_dictSet_ne d k v k' hne⟩

theorem import_records_frame_full (rc : Redcapy) (p : Val) (k : String)
    (hk : k ∈ importRecordsKeys) (hkd : k ≠ "data") (hkf : k ≠ "format")
    (v : Val) (k' : String) (hne : k' ≠ k) :
    dlookup (rc.import_records p [(k, v)]).1 k = some v ∧
    dlookup (rc.import_records p [(k, v)]).1 k' =
      dlookup (rc.import_records p []).1 k' := by
  have hfmt : dlookup (importRecordsPostData rc p) "format" = some (.vstr "json") := rfl
  have e1 : rc.import_records p [(k, v)] =
      importRecordsTransform p (dictSet (importRecordsPostData rc p) k v) [] := by
    unfold Redcapy.import_records
    rw [applyKwargs_single_mem _ _ _ _ _ hk]
  have e0 : rc.import_records p [] =
      importRecordsTransform p (importRecordsPostData rc p) [] := rfl
  rw [e1, e0]
  exact importRecordsTransform_frame p _ k hkd hkf v hfmt k' hne

theorem actionInList_nil (l : List String) : actionInList [] l = false := rfl

theorem actionInList_single_false (k : String) (v : Val) (hka : k ≠ "action") :
    actionInList [(k, v)] ["export", "delete"] = false := by
  simp [actionInList, dlookup, hka]

theorem import_file_frame (rc : Redcapy) (rid fld ev : String) (fn : Val)
    (ri : Option String) (k : String) (hk : k ∈ importFileKeys) (s : String)
    (hact : ¬(k = "action" ∧ (s = "export" ∨ s = "delete"))) (k' : String)
    (hne : k' ≠ k) :
    dlookup (rc.import_file rid fld ev fn ri [(k, .vstr s)]).1 k = some (.vstr s) ∧
    dlookup (rc.import_file rid fld ev fn ri [(k, .vstr s)]).1 k' =
      dlookup (rc.import_file rid fld ev fn ri []).1 k' := by
  have ha : actionInList [(k, .vstr s)] ["export", "delete"] = false := by
    by_cases hka : k = "action"
    · subst hka
      have hs : ¬(s = "export" ∨ s = "delete") := fun h => hact ⟨rfl, h⟩
      simp [actionInList, dlookup, hs]
    · exact actionInList_single_false k (.vstr s) hka
  have e1 : rc.import_file rid fld ev fn ri [(k, .vstr s)] =
      (dictSet (importFilePostData rc rid fld ev fn ri) k (.vstr s), []) := by
    unfold Redcapy.import_file
    rw [ha]
    rw [if_neg (by simp)]
    rw [applyKwargsStr_single_mem _ _ _ _ _ hk]
    rfl
  have e0 : rc.import_file rid fld ev fn ri [] =
      (importFilePostData rc rid fld ev fn ri, []) := rfl
  rw [e1, e0]
  exact ⟨dlookup_dictSet_self _ k (.vstr s), dlookup_dictSet_ne _ k _ k' hne⟩

theorem applyKwargsStr_nil (allow : List String)
    (init : List (String × Val) × List String) :
    applyKwargsStr allow init [] = init := rfl

theorem invalid_key_generic (allow : List String) (d : List (String × Val))
    (k : String) (v : Val) (hk : k ∉ allow) :
    (applyKwargs allow (d, []) [(k, v)]).1 = (applyKwargs allow (d, []) []).1 ∧
    invalidKeyMsg k ∈ (applyKwargs allow (d, []) [(k, v)]).2 := by
  rw [applyKwargs_single_not_mem _ _ _ _ _ hk, applyKwargs_nil]
  exact ⟨rfl, by simp⟩

/-- C1: the claim states that no exception escapes to the caller, that the
only process-terminating path is a transport-level connection failure, and
in particular that no HTTP response body (for any status code) causes
process termination.  The code contradicts the last part: for a 400-status
response, `json.loads(r.text)['error']` (line 63) runs inside the `try`
block, so a 400 response whose body is not a JSON object carrying an
`error` key raises, is caught by the blanket `except` (line 78), and the
process is terminated by `sys.exit` with the — then factually wrong —
connection-failure message.  Below: a 400 response with an empty body and
one with an HTML body terminate exactly like a real connection error, while
a 500 response is handled non-fatally (diagnostic plus `False`). -/
theorem c1_response_body_can_terminate :
    coreApiCode false false (.ok 400 "") = ⟨[], .exited connAbort⟩ ∧
    coreApiCode false false (.ok 400 "<html>Bad Request</html>") =
      ⟨[], .exited connAbort⟩ ∧
    coreApiCode false false .connError = ⟨[], .exited connAbort⟩ ∧
    coreApiCode false false (.ok 500 "oops") =
      ⟨["Critical: Redcap server returned a 500 status code. Error received from Redcap: oops"],
       .ret (.rbool false)⟩ :=
  ⟨rfl, rfl, rfl, rfl⟩

/-- C6: a 200-status response body that is non-empty and matches the URL
pattern in its entirety is returned verbatim, for every call context,
before any JSON decoding or XML parsing is attempted — the check sits first
in the classification cascade (lines 84-87). -/
theorem c6_url_verbatim (imp del : Bool) (body : String) (h1 : body ≠ "")
    (h2 : findUrl body = body) :
    coreApiCode imp del (.ok 200 body) = ⟨[], .ret (.rstr body)⟩ := by
  rw [coreApi_200, normalize200_url imp del body h1 h2]

theorem c6_url_verbatim_witness :
    coreApiCode false false (.ok 200 "https://redcap.example.org/surveys/?s=abc123") =
      ⟨[], .ret (.rstr "https://redcap.example.org/surveys/?s=abc123")⟩ :=
  c6_url_verbatim false false _ (by decide) (by decide)

/-- C7: for a 200-status body that is not a bare URL the normalizer runs
the cascade of lines 92-101: strict JSON decoding first (a valid-JSON body
such as `\x7b"error":"bad request"\x7d` is returned decoded, JSON winning
over XML), then the XML `hash > error` extraction (the body
`<hash><error>X not found</error></hash>` yields `X not found`), and when
both fail a diagnostic is printed and the raw text is returned unchanged. -/
theorem c7_cascade :
    (∀ (imp del : Bool) (body : String), body ≠ "" → findUrl body ≠ body →
      coreApiCode imp del (.ok 200 body) = jsonXmlRawOutcome body) ∧
    coreApiCode false false (.ok 200 "\x7b\"error\":\"bad request\"\x7d") =
      ⟨[], .ret (.rjson (.obj [("error", .str "bad request")]))⟩ ∧
    coreApiCode false false (.ok 200 "<hash><error>X not found</error></hash>") =
      ⟨[], .ret (.rstr "X not found")⟩ ∧
    coreApiCode false false (.ok 200 "mystery payload") =
      ⟨[notJsonXmlMsg "mystery payload"], .ret (.rstr "mystery payload")⟩ := by
  refine ⟨?_, rfl, rfl, rfl⟩
  intro imp del body h1 h2
  rw [coreApi_200, normalize200_cascade imp del body h1 h2]

theorem c7_cascade_witness :
    coreApiCode true true (.ok 200 "\x7b\"count\": 1\x7d") =
      jsonXmlRawOutcome "\x7b\"count\": 1\x7d" :=
  c7_cascade.1 true true _ (by decide) (by decide)

/-- C8: a 400-status response whose JSON body carries the error message
`There is no file to delete for this record` is treated as a successful
no-op for every call context: the message is printed and the call returns
`True` (lines 63-65). -/
theorem c8_no_file_delete_success (imp del : Bool) :
    coreApiCode imp del
      (.ok 400 "\x7b\"error\": \"There is no file to delete for this record\"\x7d") =
      ⟨[noFileMsg], .ret (.rbool true)⟩ := rfl

/-- C9: on a file-delete call (`delete_file=True`) a 200-status response
with an empty body is classified as success and the call returns the
boolean `True` (lines 89-90). -/
theorem c9_delete_empty_body_true :
    coreApiCode false true (.ok 200 "") = ⟨[], .ret (.rbool true)⟩ := rfl

/-- C10: on a file-import call (`import_file=True`) a 200-status response
with an empty body skips JSON decoding and XML parsing entirely and the
call returns `True` (the `else` of line 102), while any non-empty,
non-URL body goes through the normal JSON / XML / raw cascade. -/
theorem c10_import_empty_body_true :
    coreApiCode true false (.ok 200 "") = ⟨[], .ret (.rbool true)⟩ ∧
    (∀ body : String, body ≠ "" → findUrl body ≠ body →
      coreApiCode true false (.ok 200 body) = jsonXmlRawOutcome body) := by
  refine ⟨rfl, ?_⟩
  intro body h1 h2
  rw [coreApi_200, normalize200_cascade true false body h1 h2]

theorem c10_import_empty_body_true_witness :
    coreApiCode true false (.ok 200 "\x7b\"id\": 7\x7d") =
      jsonXmlRawOutcome "\x7b\"id\": 7\x7d" :=
  c10_import_empty_body_true.2 _ (by decide) (by decide)

/-- C2: in `import_records`, a string payload whose first character is not
`[` is parsed and re-wrapped into a one-element JSON array before sending
(`'\x7b"a":1\x7d'` yields a final `data` field `'[\x7b"a": 1\x7d]'`), a string
payload starting with `[` is left unchanged, and a string payload that fails
to parse is sent as-is with a printed diagnostic (lines 449-460). -/
theorem c2_import_records_payload_wrap :
    (∀ (rc : Redcapy) (s : String) (j : Json), s.take 1 ≠ "[" → jsonParse s = some j →
      rc.import_records (.vstr s) [] =
        (dictSet (importRecordsPostData rc (.vstr s)) "data"
          (.vstr (jsonDumps (.arr [j]))), [])) ∧
    (∀ (rc : Redcapy) (s : String), s.take 1 ≠ "[" → jsonParse s = none →
      rc.import_records (.vstr s) [] =
        (importRecordsPostData rc (.vstr s), [badPayloadMsg])) ∧
    (∀ (rc : Redcapy) (s : String), s.take 1 = "[" →
      rc.import_records (.vstr s) [] = (importRecordsPostData rc (.vstr s), [])) ∧
    (∀ rc : Redcapy,
      dlookup (rc.import_records (.vstr "\x7b\"a\":1\x7d") []).1 "data" =
        some (.vstr "[\x7b\"a\": 1\x7d]") ∧
      dlookup (rc.import_records (.vstr "[\x7b\"a\":1\x7d]") []).1 "data" =
        some (.vstr "[\x7b\"a\":1\x7d]")) := by
  have hfmt : ∀ (rc : Redcapy) (p : Val),
      dlookup (importRecordsPostData rc p) "format" = some (.vstr "json") :=
    fun _ _ => rfl
  refine ⟨?_, ?_, ?_, ?_⟩
  · intro rc s j hpre hj
    unfold Redcapy.import_records
    rw [applyKwargs_nil]
    unfold importRecordsTransform
    rw [if_pos (hfmt rc (.vstr s))]
    dsimp only
    rw [if_pos hpre]
    simp only [hj]
  · intro rc s hpre hj
    unfold Redcapy.import_records
    rw [applyKwargs_nil]
    unfold importRecordsTransform
    rw [if_pos (hfmt rc (.vstr s))]
    dsimp only
    rw [if_pos hpre]
    simp only [hj, List.nil_append]
  · intro rc s hpre
    unfold Redcapy.import_records
    rw [applyKwargs_nil]
    exact importRecordsTransform_arrayForm (.vstr s) (by simp [arrayFormPayload, hpre]) _ _
  · intro rc
    exact ⟨rfl, rfl⟩

theorem c2_import_records_payload_wrap_witness :
    (Redcapy.mk "T" "U").import_records (.vstr "\x7b\"a\":1\x7d") [] =
      (dictSet (importRecordsPostData (Redcapy.mk "T" "U") (.vstr "\x7b\"a\":1\x7d")) "data"
        (.vstr (jsonDumps (.arr [Json.obj [("a", Json.num 1)]]))), []) :=
  c2_import_records_payload_wrap.1 (Redcapy.mk "T" "U") "\x7b\"a\":1\x7d"
    (Json.obj [("a", Json.num 1)]) (by decide) rfl

/-- C3: every recognized operation called with no keyword overrides produces
exactly its documented default POST mapping, including the client token and
the operation-identifying `content` field.  For `import_records` the `data`
field of the default mapping is the payload itself whenever the documented
payload normalization is the identity (a payload already in JSON-array form,
or a non-string payload); a string payload subject to re-wrapping is the
subject of claim C2. -/
theorem c3_default_descriptors :
    (∀ rc : Redcapy, rc.export_events [] =
      ([("token", .vstr rc.redcap_token), ("content", .vstr "event"),
        ("format", .vstr "json"), ("returnFormat", .vstr "json")], [])) ∧
    (∀ rc : Redcapy, rc.export_data_dictionary [] =
      ([("token", .vstr rc.redcap_token), ("content", .vstr "metadata"),
        ("format", .vstr "json"), ("returnFormat", .vstr "json")], [])) ∧
    (∀ (rc : Redcapy) (instrument event record : String),
      rc.export_survey_link instrument event record [] =
      ([("token", .vstr rc.redcap_token), ("content", .vstr "surveyLink"),
        ("format", .vstr "json"), ("instrument", .vstr instrument),
        ("event", .vstr event), ("record", .vstr record),
        ("returnFormat", .vstr "json")], [])) ∧
    (∀ (rc : Redcapy) (instrument event : String),
      rc.export_survey_participants instrument event [] =
      ([("token", .vstr rc.redcap_token), ("content", .vstr "participantList"),
        ("format", .vstr "json"), ("instrument", .vstr instrument),
        ("event", .vstr event), ("returnFormat", .vstr "json")], [])) ∧
    (∀ rc : Redcapy, rc.export_records [] =
      ([("token", .vstr rc.redcap_token), ("content", .vstr "record"),
        ("format", .vstr "json"), ("type", .vstr "flat"),
        ("rawOrLabel", .vstr "raw"), ("rawOrLabelHeaders", .vstr "raw"),
        ("exportCheckboxLabel", .vstr "false"), ("exportSurveyFields", .vstr "false"),
        ("exportDataAccessGroups", .vstr "false"),
        ("returnFormat", .vstr "json")], [])) ∧
    (∀ (rc : Redcapy) (id_to_delete : String),
      rc.delete_record id_to_delete [] =
      ([("token", .vstr rc.redcap_token), ("action", .vstr "delete"),
        ("content", .vstr "record"), ("records[0]", .vstr id_to_delete)], [])) ∧
    (∀ (rc : Redcapy) (id field event repeat_instance : String),
      rc.delete_form id field event repeat_instance [] =
      ([("token", .vstr rc.redcap_token), ("content", .vstr "file"),
        ("action", .vstr "delete"), ("record", .vstr id), ("field", .vstr field),
        ("event", .vstr event), ("repeat_instance", .vstr repeat_instance)], [])) ∧
    (∀ (rc : Redcapy) (record_id field event : String) (filename : Val),
      rc.import_file record_id field event filename none [] =
      ([("token", .vstr rc.redcap_token), ("content", .vstr "file"),
        ("format", .vstr "json"), ("action", .vstr "import"),
        ("record", .vstr record_id), ("field", .vstr field),
        ("event", .vstr event), ("returnFormat", .vstr "json"),
        ("file", filename)], [])) ∧
    (∀ (rc : Redcapy) (p : Val), arrayFormPayload p = true →
      rc.import_records p [] =
      ([("token", .vstr rc.redcap_token), ("content", .vstr "record"),
        ("format", .vstr "json"), ("type", .vstr "flat"),
        ("overwriteBehavior", .vstr "normal"), ("data", p),
        ("dateFormat", .vstr "YMD"), ("returnContent", .vstr "count"),
        ("returnFormat", .vstr "json")], [])) := by
  refine ⟨fun _ => rfl, fun _ => rfl, fun _ _ _ _ => rfl, fun _ _ _ => rfl,
    fun _ => rfl, fun _ _ => rfl, fun _ _ _ _ _ => rfl, fun _ _ _ _ _ => rfl, ?_⟩
  intro rc p hp
  unfold Redcapy.import_records
  rw [applyKwargs_nil]
  exact importRecordsTransform_arrayForm p hp _ _

theorem c3_default_descriptors_witness :
    (Redcapy.mk "T" "U").import_records (.vstr "[\x7b\"a\":1\x7d]") [] =
      ([("token", .vstr "T"), ("content", .vstr "record"), ("format", .vstr "json"),
        ("type", .vstr "flat"), ("overwriteBehavior", .vstr "normal"),
        ("data", .vstr "[\x7b\"a\":1\x7d]"), ("dateFormat", .vstr "YMD"),
        ("returnContent", .vstr "count"), ("returnFormat", .vstr "json")], []) :=
  c3_default_descriptors.2.2.2.2.2.2.2.2 (Redcapy.mk "T" "U")
    (.vstr "[\x7b\"a\":1\x7d]") (by decide)

/-- C4 counterexample: `data` is in the `import_records` allow-list, yet
with positional payload `'\x7b"a":1\x7d'` an explicit `data` override of
`'[\x7b"b":2\x7d]'` does not survive — the payload normalization of lines
449-460 recomputes `data` from the original positional payload, so the
final `data` field is `'[\x7b"a": 1\x7d]'`, not the supplied override. -/
theorem c4_counterexample :
    "data" ∈ importRecordsKeys ∧
    dlookup ((Redcapy.mk "T" "U").import_records (.vstr "\x7b\"a\":1\x7d")
        [("data", .vstr "[\x7b\"b\":2\x7d]")]).1 "data" =
      some (.vstr "[\x7b\"a\": 1\x7d]") ∧
    some (Val.vstr "[\x7b\"a\": 1\x7d]") ≠ some (Val.vstr "[\x7b\"b\":2\x7d]") :=
  ⟨by decide, rfl, by decide⟩

/-- C4 (amended): for every operation, an allow-listed override replaces
that key's value and leaves every other field identical to the same call
without overrides — except where the code explicitly post-processes the
merged mapping: in `import_records` this is guaranteed for keys other than
`data` and `format` for every payload, and for all allow-listed keys when
the payload is not subject to re-wrapping (already in array form, or not a
string); a `data` override with a re-wrapped payload is clobbered (see the
counterexample) and a `format` override switching away from `json` changes
whether `data` is re-wrapped.  In `import_file` the override value is
stored through `str(...)` and an `action` override of `export` or `delete`
additionally removes the `file` field, so the guarantee holds for string
overrides other than those two `action` values. -/
theorem c4_override_frame_amended :
    (∀ (rc : Redcapy) (k : String), k ∈ eventsKeys → ∀ (v : Val) (k' : String),
      k' ≠ k →
      dlookup (rc.export_events [(k, v)]).1 k = some v ∧
      dlookup (rc.export_events [(k, v)]).1 k' = dlookup (rc.export_events []).1 k') ∧
    (∀ (rc : Redcapy) (k : String), k ∈ metadataKeys → ∀ (v : Val) (k' : String),
      k' ≠ k →
      dlookup (rc.export_data_dictionary [(k, v)]).1 k = some v ∧
      dlookup (rc.export_data_dictionary [(k, v)]).1 k' =
        dlookup (rc.export_data_dictionary []).1 k') ∧
    (∀ (rc : Redcapy) (instrument event record : String) (k : String),
      k ∈ surveyLinkKeys → ∀ (v : Val) (k' : String), k' ≠ k →
      dlookup (rc.export_survey_link instrument event record [(k, v)]).1 k = some v ∧
      dlookup (rc.export_survey_link instrument event record [(k, v)]).1 k' =
        dlookup (rc.export_survey_link instrument event record []).1 k') ∧
    (∀ (rc : Redcapy) (instrument event : String) (k : String),
      k ∈ participantsKeys → ∀ (v : Val) (k' : String), k' ≠ k →
      dlookup (rc.export_survey_participants instrument event [(k, v)]).1 k = some v ∧
      dlookup (rc.export_survey_participants instrument event [(k, v)]).1 k' =
        dlookup (rc.export_survey_participants instrument event []).1 k') ∧
    (∀ (rc : Redcapy) (k : String), k ∈ recordsKeys → ∀ (v : Val) (k' : String),
      k' ≠ k →
      dlookup (rc.export_records [(k, v)]).1 k = some v ∧
      dlookup (rc.export_records [(k, v)]).1 k' = dlookup (rc.export_records []).1 k') ∧
    (∀ (rc : Redcapy) (id_to_delete : String) (k : String), k ∈ deleteRecordKeys →
      ∀ (v : Val) (k' : String), k' ≠ k →
      dlookup (rc.delete_record id_to_delete [(k, v)]).1 k = some v ∧
      dlookup (rc.delete_record id_to_delete [(k, v)]).1 k' =
        dlookup (rc.delete_record id_to_delete []).1 k') ∧
    (∀ (rc : Redcapy) (id field event repeat_instance : String) (k : String),
      k ∈ deleteFormKeys → ∀ (v : Val) (k' : String), k' ≠ k →
      dlookup (rc.delete_form id field event repeat_instance [(k, v)]).1 k = some v ∧
      dlookup (rc.delete_form id field event repeat_instance [(k, v)]).1 k' =
        dlookup (rc.delete_form id field event repeat_instance []).1 k') ∧
    (∀ (rc : Redcapy) (p : Val) (k : String), k ∈ importRecordsKeys → k ≠ "data" →
      k ≠ "format" → ∀ (v : Val) (k' : String), k' ≠ k →
      dlookup (rc.import_records p [(k, v)]).1 k = some v ∧
      dlookup (rc.import_records p [(k, v)]).1 k' =
        dlookup (rc.import_records p []).1 k') ∧
    (∀ (rc : Redcapy) (p : Val), arrayFormPayload p = true →
      ∀ (k : String), k ∈ importRecordsKeys → ∀ (v : Val) (k' : String), k' ≠ k →
      dlookup (rc.import_records p [(k, v)]).1 k = some v ∧
      dlookup (rc.import_records p [(k, v)]).1 k' =
        dlookup (rc.import_records p []).1 k') ∧
    (∀ (rc : Redcapy) (rid fld ev : String) (fn : Val) (ri : Option String)
      (k : String), k ∈ importFileKeys → ∀ (s : String),
      ¬(k = "action" ∧ (s = "export" ∨ s = "delete")) → ∀ (k' : String), k' ≠ k →
      dlookup (rc.import_file rid fld ev fn ri [(k, .vstr s)]).1 k = some (.vstr s) ∧
      dlookup (rc.import_file rid fld ev fn ri [(k, .vstr s)]).1 k' =
        dlookup (rc.import_file rid fld ev fn ri []).1 k') := by
  refine ⟨?_, ?_, ?_, ?_, ?_, ?_, ?_, ?_, ?_, ?_⟩
  · exact fun rc k hk v k' hne => override_frame_generic eventsKeys _ k hk v k' hne
  · exact fun rc k hk v k' hne => override_frame_generic metadataKeys _ k hk v k' hne
  · exact fun rc i e r k hk v k' hne =>
      override_frame_generic surveyLinkKeys _ k hk v k' hne
  · exact fun rc i e k hk v k' hne =>
      override_frame_generic participantsKeys _ k hk v k' hne
  · exact fun rc k hk v k' hne => override_frame_generic recordsKeys _ k hk v k' hne
  · exact fun rc i k hk v k' hne =>
      override_frame_generic deleteRecordKeys _ k hk v k' hne
  · exact fun rc i f e r k hk v k' hne =>
      override_frame_generic deleteFormKeys _ k hk v k' hne
  · exact fun rc p k hk hkd hkf v k' hne =>
      import_records_frame_full rc p k hk hkd hkf v k' hne
  · intro rc p hp k hk v k' hne
    have e1 : rc.import_records p [(k, v)] =
        (dictSet (importRecordsPostData rc p) k v, []) := by
      unfold Redcapy.import_records
      rw [applyKwargs_single_mem _ _ _ _ _ hk]
      exact importRecordsTransform_arrayForm p hp _ _
    have e0 : rc.import_records p [] = (importRecordsPostData rc p, []) := by
      unfold Redcapy.import_records
      rw [applyKwargs_nil]
      exact importRecordsTransform_arrayForm p hp _ _
    rw [e1, e0]
    exact ⟨dlookup_dictSet_self _ k v, dlookup_dictSet_ne _ k v k' hne⟩
  · exact fun rc rid fld ev fn ri k hk s hact k' hne =>
      import_file_frame rc rid fld ev fn ri k hk s hact k' hne

theorem c4_override_frame_amended_witness :
    dlookup ((Redcapy.mk "T" "U").export_events [("format", .vstr "xml")]).1
      "format" = some (.vstr "xml") ∧
    dlookup ((Redcapy.mk "T" "U").export_events [("format", .vstr "xml")]).1
      "content" = dlookup ((Redcapy.mk "T" "U").export_events []).1 "content" :=
  c4_override_frame_amended.1 (Redcapy.mk "T" "U") "format" (by decide)
    (.vstr "xml") "content" (by decide)

/-- C5: for every operation, an override key absent from that operation's
allow-list is rejected without failing the call: the diagnostic
`'<key> is not a valid key'` is recorded, the key is not applied, the POST
mapping is identical to the call without overrides, and execution
continues. -/
theorem c5_invalid_key_rejected :
    (∀ (rc : Redcapy) (k : String) (v : Val), k ∉ eventsKeys →
      (rc.export_events [(k, v)]).1 = (rc.export_events []).1 ∧
      invalidKeyMsg k ∈ (rc.export_events [(k, v)]).2) ∧
    (∀ (rc : Redcapy) (k : String) (v : Val), k ∉ metadataKeys →
      (rc.export_data_dictionary [(k, v)]).1 = (rc.export_data_dictionary []).1 ∧
      invalidKeyMsg k ∈ (rc.export_data_dictionary [(k, v)]).2) ∧
    (∀ (rc : Redcapy) (instrument event record k : String) (v : Val),
      k ∉ surveyLinkKeys →
      (rc.export_survey_link instrument event record [(k, v)]).1 =
        (rc.export_survey_link instrument event record []).1 ∧
      invalidKeyMsg k ∈ (rc.export_survey_link instrument event record [(k, v)]).2) ∧
    (∀ (rc : Redcapy) (instrument event k : String) (v : Val),
      k ∉ participantsKeys →
      (rc.export_survey_participants instrument event [(k, v)]).1 =
        (rc.export_survey_participants instrument event []).1 ∧
      invalidKeyMsg k ∈ (rc.export_survey_participants instrument event [(k, v)]).2) ∧
    (∀ (rc : Redcapy) (k : String) (v : Val), k ∉ recordsKeys →
      (rc.export_records [(k, v)]).1 = (rc.export_records []).1 ∧
      invalidKeyMsg k ∈ (rc.export_records [(k, v)]).2) ∧
    (∀ (rc : Redcapy) (id_to_delete k : String) (v : Val), k ∉ deleteRecordKeys →
      (rc.delete_record id_to_delete [(k, v)]).1 = (rc.delete_record id_to_delete []).1 ∧
      invalidKeyMsg k ∈ (rc.delete_record id_to_delete [(k, v)]).2) ∧
    (∀ (rc : Redcapy) (id field event repeat_instance k : String) (v : Val),
      k ∉ deleteFormKeys →
      (rc.delete_form id field event repeat_instance [(k, v)]).1 =
        (rc.delete_form id field event repeat_instance []).1 ∧
      invalidKeyMsg k ∈ (rc.delete_form id field event repeat_instance [(k, v)]).2) ∧
    (∀ (rc : Redcapy) (p : Val) (k : String) (v : Val), k ∉ importRecordsKeys →
      (rc.import_records p [(k, v)]).1 = (rc.import_records p []).1 ∧
      invalidKeyMsg k ∈ (rc.import_records p [(k, v)]).2) ∧
    (∀ (rc : Redcapy) (rid fld ev : String) (fn : Val) (ri : Option String)
      (k : String) (v : Val), k ∉ importFileKeys →
      (rc.import_file rid fld ev fn ri [(k, v)]).1 =
        (rc.import_file rid fld ev fn ri []).1 ∧
      invalidKeyMsg k ∈ (rc.import_file rid fld ev fn ri [(k, v)]).2) := by
  refine ⟨?_, ?_, ?_, ?_, ?_, ?_, ?_, ?_, ?_⟩
  · exact fun rc k v hk => invalid_key_generic eventsKeys _ k v hk
  · exact fun rc k v hk => invalid_key_generic metadataKeys _ k v hk
  · exact fun rc i e r k v hk => invalid_key_generic surveyLinkKeys _ k v hk
  · exact fun rc i e k v hk => invalid_key_generic participantsKeys _ k v hk
  · exact fun rc k v hk => invalid_key_generic recordsKeys _ k v hk
  · exact fun rc i k v hk => invalid_key_generic deleteRecordKeys _ k v hk
  · exact fun rc i f e r k v hk => invalid_key_generic deleteFormKeys _ k v hk
  · intro rc p k v hk
    have e := applyKwargs_single_not_mem importRecordsKeys
      (importRecordsPostData rc p) [] k v hk
    constructor
    · unfold Redcapy.import_records
      rw [e, applyKwargs_nil]
      exact (importRecordsTransform_decomp p (importRecordsPostData rc p)
        ([] ++ [invalidKeyMsg k])).1
    · unfold Redcapy.import_records
      rw [e]
      obtain ⟨extra, hex⟩ := (importRecordsTransform_decomp p
        (importRecordsPostData rc p) ([] ++ [invalidKeyMsg k])).2
      rw [hex]
      simp
  · intro rc rid fld ev fn ri k v hk
    have hka : k ≠ "action" :=
      fun h => hk (h ▸ (by decide : ("action" : String) ∈ importFileKeys))
    have ha := actionInList_single_false k v hka
    have e := applyKwargsStr_single_not_mem importFileKeys
      (importFilePostData rc rid fld ev fn ri) [] k v hk
    unfold Redcapy.import_file
    rw [ha, if_neg (by simp), e, actionInList_nil, if_neg (by simp),
      applyKwargsStr_nil]
    exact ⟨rfl, by simp⟩

theorem c5_invalid_key_rejected_witness :
    ((Redcapy.mk "T" "U").export_events [("bogus", .vstr "x")]).1 =
      ((Redcapy.mk "T" "U").export_events []).1 ∧
    invalidKeyMsg "bogus" ∈ ((Redcapy.mk "T" "U").export_events [("bogus", .vstr "x")]).2 :=
  c5_invalid_key_rejected.1 (Redcapy.mk "T" "U") "bogus" (.vstr "x") (by decide)
